import Mathlib

/-!
Verification of the globus-sdk-python native-app authorization flow and its
token persistence layer, as a shallow embedding in Lean 4.

Embedded source files:
  globus_sdk/utils/token_storage.py   (save_tokens, load_tokens, clear_tokens,
    serialize_token_groups, deserialize_token_groups, serialize/deserialize key mangling)
  globus_sdk/auth/oauth2_native_app_shortcut.py   (native_auth, NATIVE_AUTH_DEFAULTS)
  globus_sdk/tokenstorage/file_adapters.py   (SimpleJSONFileAdapter)

Modelling conventions:
  - Python dicts become association lists with insert-or-assign update
    (pyDictSet) and first-match lookup (pyDictGet); a Python dict never holds
    a duplicate key, so first-match lookup agrees with dict lookup.
  - The configuration backend is, per the specification, an external
    collaborator consumed only through its narrow get/set/remove/get_section
    contract; a config section is therefore modelled as an exact string-to-string
    association list, and a possibly missing section as an Option of one.
  - Raised exceptions become error values; each modelled function returns an
    outcome type whose error constructors mirror the exception classes
    (ConfigError, LoadedTokensExpired, RequestedScopesMismatch, ValueError).
  - Python ints here are epoch-second timestamps, modelled as Nat; str(n) and
    int(s) on nonnegative decimals are modelled by natRepr and parseNat.
  - Python truthiness is modelled explicitly where the source relies on it
    (empty string, zero, None and empty collections are falsy).
-/

/-! ## A model of Python dict update and lookup -/

/-- Insert-or-assign on an association list: replaces the value at an existing
key in place, otherwise appends the binding at the end. This is exactly the
observable behaviour of assignment into a Python dict, which keeps insertion
order. -/
def pyDictSet {κ ε : Type} [DecidableEq κ] : List (κ × ε) → κ → ε → List (κ × ε)
  | [], k, v => [(k, v)]
  | (k0, v0) :: d, k, v => if k0 = k then (k, v) :: d else (k0, v0) :: pyDictSet d k v

/-- First-match lookup on an association list; models dict.get returning None
for a missing key. -/
def pyDictGet {κ ε : Type} [DecidableEq κ] : List (κ × ε) → κ → Option ε
  | [], _ => none
  | (k0, v0) :: d, k => if k0 = k then some v0 else pyDictGet d k

/-- Key removal; models ConfigParser remove_option on a section. -/
def pyDictRemove {κ ε : Type} [DecidableEq κ] (d : List (κ × ε)) (k : κ) : List (κ × ε) :=
  d.filter (fun p => p.1 ≠ k)

/-! ## Decimal printing and parsing, modelling Python str(int) and int(str)
for the nonnegative integers that occur in token records -/

/-- Fuel-driven helper so the digit list is structurally recursive and hence
evaluable inside the kernel; the fuel always suffices because a positive
number shrinks under division by ten. -/
def toDigitsRevAux : Nat → Nat → List Nat
  | 0, _ => []
  | _ + 1, 0 => []
  | fuel + 1, n + 1 => ((n + 1) % 10) :: toDigitsRevAux fuel ((n + 1) / 10)

/-- Decimal digits of a positive number, least significant first. -/
def toDigitsRev (n : Nat) : List Nat := toDigitsRevAux n n

/-- The character for one decimal digit, as an offset from the code point of
the zero character. -/
def digitChr (d : Nat) : Char := Char.ofNat ('0'.toNat + d)

/-- The value of one decimal digit character, none for any other character. -/
def digitVal (c : Char) : Option Nat :=
  if '0' ≤ c ∧ c ≤ '9' then some (c.toNat - '0'.toNat) else none

/-- Models Python str on a nonnegative int. -/
def natRepr (n : Nat) : String :=
  if n = 0 then "0" else String.mk (((toDigitsRev n).map digitChr).reverse)

/-- Models Python int on a string holding a nonnegative decimal numeral; none
models the ValueError raised on any other string (and the TypeError raised on
None is modelled at the call site). -/
def parseNat : String → Option Nat :=
  fun s =>
    if s.data = [] then none
    else if s.data.all (fun c => (digitVal c).isSome) then
      some (s.data.foldl (fun acc c => acc * 10 + (digitVal c).getD 0) 0)
    else none

/-! ## Comma join and split, modelling the Python comma str.join and
str.split used for the token_groups index value -/

def splitAux : List Char → List Char → List String
  | [], acc => [String.mk acc.reverse]
  | c :: cs, acc =>
    if c = ',' then String.mk acc.reverse :: splitAux cs [] else splitAux cs (c :: acc)

/-- Models the Python split of a string on the comma separator: always yields
at least one element, and an empty string yields a singleton empty string. -/
def splitComma (s : String) : List String := splitAux s.data []

/-- Models the Python comma join of a list of strings. -/
def joinComma : List String → String
  | [] => ""
  | [g] => g
  | g :: gs => g ++ "," ++ joinComma gs

/-! ## Whitespace split, modelling the Python str.split with no arguments
(used on scope strings); splits on whitespace runs and drops empty pieces -/

def splitWSAux : List Char → List Char → List String
  | [], acc => if acc.isEmpty then [] else [String.mk acc.reverse]
  | c :: cs, acc =>
    if c.isWhitespace then
      (if acc.isEmpty then splitWSAux cs [] else String.mk acc.reverse :: splitWSAux cs [])
    else splitWSAux cs (c :: acc)

def pySplitWS (s : String) : List String := splitWSAux s.data []

/-! ## token_storage.py: the token record and the sectioned key-value
serialization -/

/-- One token record for one resource server. In the source this is a plain
dict whose six keys are always present; a value may be the Python None, hence
every field is an Option. The epoch-seconds field is a nonnegative int. -/
structure TokenData where
  scope : Option String
  access_token : Option String
  refresh_token : Option String
  token_type : Option String
  expires_at_seconds : Option Nat
  resource_server : Option String
deriving DecidableEq, Repr

def TOKEN_KEYS : List String :=
  ["scope", "access_token", "refresh_token", "token_type", "expires_at_seconds",
   "resource_server"]

def CONFIG_TOKEN_GROUPS : String := "token_groups"

def sanitizeChar (c : Char) : Char := if c = '.' then '_' else c

/-- Models the Python replace of every dot by an underscore in a resource
server name (a single-character pattern, hence a character map). -/
def sanitize (rs : String) : String := String.mk (rs.data.map sanitizeChar)

/-- Source helper serialize_token: the sanitized resource server, an
underscore, then the field name (empty for the group name itself, which
therefore ends with an underscore). -/
def serialize_token (resource_server : String) (token : String := "") : String :=
  sanitize resource_server ++ "_" ++ token

/-- Source helper deserialize_token: plain concatenation of a group name
(already underscore-terminated) with a field name. -/
def deserialize_token (grouping token : String) : String := grouping ++ token

/-- The resource server string of a record. The source reads the dict entry
directly and would raise an AttributeError on a None value inside
serialize_token; every verified path reaches serialization only with a present
resource server, so the default here is never observable. -/
def rsOf (t : TokenData) : String := t.resource_server.getD ""

/-- The serialized string for one field of one record, following the source
rules: ints convert to their decimal text, None converts to the empty
string. -/
def fieldValue (t : TokenData) : String → String
  | "scope" => t.scope.getD ""
  | "access_token" => t.access_token.getD ""
  | "refresh_token" => t.refresh_token.getD ""
  | "token_type" => t.token_type.getD ""
  | "expires_at_seconds" => (t.expires_at_seconds.map natRepr).getD ""
  | "resource_server" => t.resource_server.getD ""
  | _ => ""

/-- The per-record inner loop of serialize_token_groups: one write per field. -/
def serializeRecord (d : List (String × String)) (t : TokenData) : List (String × String) :=
  TOKEN_KEYS.foldl (fun d k => pyDictSet d (serialize_token (rsOf t) k) (fieldValue t k)) d

/-- Source serialize_token_groups: a flat dict with one key per record field,
plus the token_groups index key holding the comma-joined group names. -/
def serialize_token_groups (tokens : List TokenData) : List (String × String) :=
  pyDictSet (tokens.foldl serializeRecord []) CONFIG_TOKEN_GROUPS
    (joinComma (tokens.map (fun t => serialize_token (rsOf t))))

/-- Source save_tokens: writes every serialized item into the given config
section through the config set contract, creating the section when absent. -/
def save_tokens (tokens : List TokenData) (sec : Option (List (String × String))) :
    List (String × String) :=
  (serialize_token_groups tokens).foldl (fun s kv => pyDictSet s kv.1 kv.2) (sec.getD [])

/-- The falsy-to-None normalization applied by deserialize_token_groups to
every loaded value: config-loaded empty strings become None. -/
def pyFalsyStr : Option String → Option String
  | none => none
  | some s => if s = "" then none else some s

/-- Reassembles one record from the flat section dict, given one group name.
A none result models the exception raised by the int conversion when the
expires key is missing (TypeError on None) or not a numeral (ValueError). -/
def deserializeGroup (d : List (String × String)) (g : String) : Option TokenData :=
  match pyDictGet d (deserialize_token g "expires_at_seconds") with
  | none => none
  | some es =>
    match parseNat es with
    | none => none
    | some n =>
      some
        { scope := pyFalsyStr (pyDictGet d (deserialize_token g "scope"))
          access_token := pyFalsyStr (pyDictGet d (deserialize_token g "access_token"))
          refresh_token := pyFalsyStr (pyDictGet d (deserialize_token g "refresh_token"))
          token_type := pyFalsyStr (pyDictGet d (deserialize_token g "token_type"))
          expires_at_seconds := if n = 0 then none else some n
          resource_server := pyFalsyStr (pyDictGet d (deserialize_token g "resource_server")) }

/-- Source deserialize_token_groups: splits the token_groups index on commas
and rebuilds a dict of records keyed by the loaded resource server value
(possibly None). A none result models any exception escaping this function,
which the caller load_tokens converts to a ConfigError. -/
def deserialize_token_groups (d : List (String × String)) :
    Option (List (Option String × TokenData)) :=
  match pyDictGet d CONFIG_TOKEN_GROUPS with
  | none => none
  | some tsets =>
    (splitComma tsets).foldlM
      (fun acc g => (deserializeGroup d g).map (fun t => pyDictSet acc t.resource_server t))
      []

/-- The exception classes load_tokens can raise. Per the spec error taxonomy
(section 7), LoadedTokensExpired and RequestedScopesMismatch are treated by
callers as configuration-validation failures; the class hierarchy itself lives
in the exc module, which is outside the embedded sources. -/
inductive LoadErr
  | configError
  | scopesMismatch
  | expired
deriving DecidableEq, Repr

inductive LoadOutcome
  | ok (tokens : List (Option String × TokenData))
  | error (e : LoadErr)
deriving DecidableEq, Repr

/-- Python truthiness test on an optional string value (None and the empty
string are falsy). -/
def pyFalsyS : Option String → Bool
  | none => true
  | some s => s == ""

/-- Python truthiness test on an optional nonnegative int (None and zero are
falsy). -/
def pyFalsyN : Option Nat → Bool
  | none => true
  | some n => n == 0

/-- The required-field test of load_tokens on one record: REQUIRED_KEYS are
scope, access_token, expires_at_seconds, resource_server, and a falsy value
counts as missing. -/
def missingRequired (t : TokenData) : Bool :=
  pyFalsyS t.scope || pyFalsyS t.access_token || pyFalsyN t.expires_at_seconds ||
    pyFalsyS t.resource_server

/-- The union (as a list, membership-wise) of the whitespace-split scopes of
all loaded records. -/
def loadedScopes (loaded : List (Option String × TokenData)) : List String :=
  (loaded.map (fun p => pySplitWS (p.2.scope.getD ""))).flatten

/-- Source load_tokens. The section argument is None when the config has no
such section (get_section returns None, and the subsequent attribute access
raises inside the try block, becoming a ConfigError). The now argument stands
for time.time(). -/
def load_tokens_section (d : List (String × String)) (requested_scopes : List String)
    (check_expired : Bool) (now : Nat) : LoadOutcome :=
  match deserialize_token_groups d with
  | none => .error .configError
  | some loaded =>
    if loaded.any (fun p => missingRequired p.2) then .error .configError
    else if (!requested_scopes.isEmpty) &&
        (loadedScopes loaded).any (fun s => !(requested_scopes.any (fun r => r == s))) then
      .error .scopesMismatch
    else if check_expired && loaded.any (fun p => p.2.expires_at_seconds.getD 0 ≤ now) then
      .error .expired
    else .ok loaded

def load_tokens (sec : Option (List (String × String))) (requested_scopes : List String)
    (check_expired : Bool) (now : Nat) : LoadOutcome :=
  match sec with
  | none => .error .configError
  | some d => load_tokens_section d requested_scopes check_expired now

/-! ## clear_tokens -/

/-- Exceptions escaping clear_tokens. revokeFailed models an exception raised
by the external oauth2_revoke_token call (for instance AuthAPIError on an
invalid client, as the source docstring states); loadFailed models an
exception raised by the reload inside the except LoadedTokensExpired handler,
which no surrounding clause catches. -/
inductive ClearErr
  | revokeFailed
  | loadFailed
deriving DecidableEq, Repr

inductive ClearOutcome
  | ret (b : Bool)
  | raised (e : ClearErr)
deriving DecidableEq, Repr

/-- The revocation loop of clear_tokens: revokeOk is the external revoke call
(true when the call returns, false when it raises); the first failure aborts
the loop. -/
def revokeAll (revokeOk : String → Bool) : List (Option String × TokenData) → Bool
  | [] => true
  | p :: rest => if revokeOk (p.2.access_token.getD "") then revokeAll revokeOk rest else false

/-- Source clear_tokens, returning the final state of the config section
alongside the outcome. The try block catches only LoadedTokensExpired (reload
without the expiry check) and ConfigError (logged, leaving the token dict
empty); any revoke failure escapes, and the deletion loop runs only after
every revoke call returned. -/
def clear_tokens (sec : Option (List (String × String))) (revokeOk : String → Bool)
    (now : Nat) : Option (List (String × String)) × ClearOutcome :=
  let tokensStep : Except ClearErr (List (Option String × TokenData)) :=
    match load_tokens sec [] true now with
    | .ok l => if revokeAll revokeOk l then .ok l else .error .revokeFailed
    | .error .expired =>
      match load_tokens sec [] false now with
      | .ok l => .ok l
      | .error _ => .error .loadFailed
    | .error _ => .ok []
  match tokensStep with
  | .error e => (sec, .raised e)
  | .ok l =>
    if l.isEmpty then (sec, .ret false)
    else
      let removedKeys := (serialize_token_groups (l.map Prod.snd)).map Prod.fst
      let d1 := removedKeys.foldl (fun s k => pyDictRemove s k) (sec.getD [])
      (some (pyDictRemove d1 CONFIG_TOKEN_GROUPS), .ret true)

/-- The well-formedness invariant of the spec data model: the four required
fields are present and truthy, and the two optional fields are either absent
or non-empty (a present empty string would not round trip, collapsing to None
on load). -/
def WellFormedToken (t : TokenData) : Prop :=
  t.scope ≠ none ∧ t.scope ≠ some "" ∧
  t.access_token ≠ none ∧ t.access_token ≠ some "" ∧
  t.expires_at_seconds ≠ none ∧ t.expires_at_seconds ≠ some 0 ∧
  t.resource_server ≠ none ∧ t.resource_server ≠ some "" ∧
  t.refresh_token ≠ some "" ∧ t.token_type ≠ some ""

instance (t : TokenData) : Decidable (WellFormedToken t) := by
  unfold WellFormedToken
  infer_instance

/-! ## oauth2_native_app_shortcut.py: the native_auth flow -/

/-- A Python value appearing in the native_auth keyword-option dict. The
constructors cover every value type the defaults table and the flow touch. -/
inductive OptValue
  | vNone
  | vStr (s : String)
  | vBool (b : Bool)
  | vNat (n : Nat)
  | vStrList (l : List String)
  | vParams (l : List (String × String))
deriving DecidableEq, Repr

/-- Python truthiness of an option value. -/
def pyTruthy : OptValue → Bool
  | .vNone => false
  | .vStr s => !(s == "")
  | .vBool b => b
  | .vNat n => !(n == 0)
  | .vStrList l => !l.isEmpty
  | .vParams l => !l.isEmpty

/-- Modelled from the spec: DEFAULT_REQUESTED_SCOPES comes from the
oauth2_constants module, which is not among the embedded sources; the spec and
the native_auth docstring state the default scopes are openid, profile, email
and the transfer all scope. -/
def DEFAULT_REQUESTED_SCOPES : List String :=
  ["openid", "profile", "email", "urn:globus:auth:scope:transfer.api.globus.org:all"]

def AUTH_CODE_REDIRECT : String := "https://auth.globus.org/v2/web/auth-code"

/-- The defaults table of native_auth. The config filename (an expanduser of
the home path) and the prefill hostname (gethostname) depend on the machine,
so both are parameters of the embedding. -/
def NATIVE_AUTH_DEFAULTS (hostname cfgfile : String) : List (String × OptValue) :=
  [("config_filename", .vStr cfgfile),
   ("config_section", .vNone),
   ("client_id", .vStr "0af96eea-fec8-4d6e-aad2-c87feed8151c"),
   ("requested_scopes", .vStrList DEFAULT_REQUESTED_SCOPES),
   ("refresh_tokens", .vBool false),
   ("prefill_named_grant", .vStr hostname),
   ("additional_auth_params", .vParams []),
   ("save_tokens", .vBool false),
   ("check_tokens_expired", .vBool true),
   ("force_login", .vBool false),
   ("no_local_server", .vBool false),
   ("no_browser", .vBool false),
   ("server_hostname", .vStr "127.0.0.1"),
   ("server_port", .vNat 8890),
   ("redirect_uri", .vStr "http://localhost:8890/")]

/-- Lookup in a resolved option dict. The keys of a resolved dict are exactly
the default keys, so the fallback is unreachable. -/
def getOpt (opts : List (String × OptValue)) (k : String) : OptValue :=
  (pyDictGet opts k).getD .vNone

/-- The dict comprehension building opts: for every default key take the
caller value when the key was passed (even if the passed value is None),
otherwise the default. -/
def mergeOpts (hostname cfgfile : String) (kwargs : List (String × OptValue)) :
    List (String × OptValue) :=
  (NATIVE_AUTH_DEFAULTS hostname cfgfile).map
    (fun kv => (kv.1, (pyDictGet kwargs kv.1).getD kv.2))

/-- Option resolution including the redirect adjustment: when the local server
is disabled (is True) and the redirect target still equals the default
local-listener value, replace it with the hosted auth-code page. -/
def resolveOpts (hostname cfgfile : String) (kwargs : List (String × OptValue)) :
    List (String × OptValue) :=
  let opts := mergeOpts hostname cfgfile kwargs
  if getOpt opts "no_local_server" = .vBool true ∧
      getOpt opts "redirect_uri" = .vStr "http://localhost:8890/" then
    pyDictSet opts "redirect_uri" (.vStr AUTH_CODE_REDIRECT)
  else opts

/-- Iterating the requested_scopes option, as load_tokens does when building
the requested scope set: a list yields its elements and a string yields its
characters (Python set semantics on a string). Non-iterable values would
raise in Python and are never exercised by the verified paths. -/
def scopeIter : OptValue → List String
  | .vStrList l => l
  | .vStr s => s.data.map (fun c => String.mk [c])
  | _ => []

/-- The storage partition key: the config_section option when truthy, else
the client_id option. -/
def resolvedSection (opts : List (String × OptValue)) : OptValue :=
  if pyTruthy (getOpt opts "config_section") then getOpt opts "config_section"
  else getOpt opts "client_id"

/-- Observable side effects of one native_auth invocation, in order. -/
inductive Effect
  | loadTok (sec : OptValue)
  | clearTok (sec : OptValue)
  | startFlow (requested redirect refresh prefill : OptValue)
  | authorizeUrl (params : OptValue)
  | startLocalServer (host port : OptValue)
  | openBrowser (url : String)
  | printUrl (url : String)
  | promptCode
  | waitForCode
  | exchangeCode (code : String)
  | saveTok (sec : OptValue)
deriving DecidableEq, Repr

/-- The external collaborators of one native_auth run: the config store of the
resolved section, the clock, the remote revoke endpoint, the remote-session
test, the authorize URL, the codes the listener or the user would produce, and
the token response of the code exchange keyed by resource server. -/
structure AuthEnv where
  store : Option (List (String × String))
  now : Nat
  revokeOk : String → Bool
  isRemote : Bool
  authUrl : String
  serverCode : String
  inputCode : String
  exchangeResult : List (Option String × TokenData)

/-- Exceptions escaping native_auth: the ValueError on unaccepted options
(the UsageError of the spec taxonomy) or an exception propagating out of
clear_tokens. -/
inductive NAErr
  | usageError
  | clearRaised (e : ClearErr)
deriving DecidableEq, Repr

inductive NAOutcome
  | ok (tokens : List (Option String × TokenData))
  | error (e : NAErr)
deriving DecidableEq, Repr

/-- Source native_auth, returning the outcome, the ordered effect trace and
the final state of the config section store. -/
def native_auth (hostname cfgfile : String) (kwargs : List (String × OptValue))
    (env : AuthEnv) : NAOutcome × List Effect × Option (List (String × String)) :=
  let knownKeys := (NATIVE_AUTH_DEFAULTS hostname cfgfile).map Prod.fst
  let unaccepted := (kwargs.map Prod.fst).filter (fun k => !(knownKeys.any (fun k0 => k0 == k)))
  if unaccepted.any (fun k => !(k == "")) then (.error .usageError, [], env.store)
  else
    let opts := resolveOpts hostname cfgfile kwargs
    let sectionOpt := resolvedSection opts
    let runFlow : List Effect → NAOutcome × List Effect × Option (List (String × String)) :=
      fun eff0 =>
        let cleared := clear_tokens env.store env.revokeOk env.now
        let eff1 := eff0 ++ [.clearTok sectionOpt]
        match cleared.2 with
        | .raised e => (.error (.clearRaised e), eff1, cleared.1)
        | .ret _ =>
          let eff2 := eff1 ++
            [.startFlow (getOpt opts "requested_scopes") (getOpt opts "redirect_uri")
              (getOpt opts "refresh_tokens") (getOpt opts "prefill_named_grant"),
             .authorizeUrl (getOpt opts "additional_auth_params")]
          let promptEff :=
            if (getOpt opts "no_browser" == OptValue.vBool false) && !env.isRemote then
              [Effect.openBrowser env.authUrl]
            else [Effect.printUrl env.authUrl]
          let stepListen :=
            if getOpt opts "no_local_server" == OptValue.vBool false then
              (eff2 ++ [Effect.startLocalServer (getOpt opts "server_hostname")
                (getOpt opts "server_port")] ++ promptEff ++ [Effect.waitForCode],
               env.serverCode)
            else (eff2 ++ promptEff ++ [Effect.promptCode], env.inputCode)
          let eff4 := stepListen.1 ++ [.exchangeCode stepListen.2]
          if getOpt opts "save_tokens" == OptValue.vBool true then
            (.ok env.exchangeResult, eff4 ++ [.saveTok sectionOpt],
             some (save_tokens (env.exchangeResult.map Prod.snd) cleared.1))
          else (.ok env.exchangeResult, eff4, cleared.1)
    if getOpt opts "force_login" == OptValue.vBool false then
      match load_tokens env.store (scopeIter (getOpt opts "requested_scopes"))
          (getOpt opts "check_tokens_expired" == OptValue.vBool true) env.now with
      | .ok loaded => (.ok loaded, [.loadTok sectionOpt], env.store)
      | .error _ => runFlow [.loadTok sectionOpt]
    else runFlow []

/-! ## tokenstorage/file_adapters.py: SimpleJSONFileAdapter -/

/-- JSON values as decoded by json.load. -/
inductive JSONValue
  | str (s : String)
  | num (n : Int)
  | bool (b : Bool)
  | null
  | obj (d : List (String × JSONValue))

def SimpleJSONFileAdapter.format_version : String := "1.0"

def SimpleJSONFileAdapter.supported_versions : List String := ["1.0"]

/-- The membership and shape tests of the source handle_formats: the loaded
format_version value must equal a supported version string, and the by_rs
value must be a dict. -/
def formatVersionOk (d : List (String × JSONValue)) : Bool :=
  match pyDictGet d "format_version" with
  | some (.str s) => SimpleJSONFileAdapter.supported_versions.any (fun v => v == s)
  | _ => false

def byRsOk (d : List (String × JSONValue)) : Bool :=
  match pyDictGet d "by_rs" with
  | some (.obj _) => true
  | _ => false

/-- Source handle_formats: version check first, then the by_rs shape check;
either failure raises a ValueError (the error payload is dropped here). -/
def handle_formats (d : List (String × JSONValue)) :
    Except Unit (List (String × JSONValue)) :=
  if formatVersionOk d then
    (if byRsOk d then .ok d else .error ())
  else .error ()

/-- Source SimpleJSONFileAdapter load: the file argument is the decoded JSON
document, or none when the file does not exist (FileNotFoundError); a missing
file yields the fresh skeleton envelope, a non-dict document raises, and an
existing dict goes through handle_formats. The sdkVersion argument stands for
the package version string. -/
def SimpleJSONFileAdapter.load (file : Option JSONValue) (sdkVersion : String) :
    Except Unit (List (String × JSONValue)) :=
  match file with
  | none =>
    .ok [("by_rs", .obj []), ("format_version", .str SimpleJSONFileAdapter.format_version),
         ("globus-sdk.version", .str sdkVersion)]
  | some (.obj d) => handle_formats d
  | some _ => .error ()

/-- One observable filesystem step of the store operation on the destination
file. openTruncateDest models opening the destination with mode w, which
truncates it in place; writeDest models the subsequent json.dump;
writeTempThenRename models an atomic replacement (never produced by this
source, present so atomicity is expressible). setUserOnlyUmask models the
user_only_umask context manager of the FileAdapter base class (not among the
embedded sources; per the spec, it restricts created files to owner-only
access). -/
inductive FSOp
  | setUserOnlyUmask
  | openTruncateDest
  | writeDest (d : JSONValue)
  | writeTempThenRename (d : JSONValue)

/-- Observable content of the destination file during a write. -/
inductive FileState
  | absent
  | truncated
  | content (d : JSONValue)

def applyFSOp : FileState → FSOp → FileState
  | s, .setUserOnlyUmask => s
  | _, .openTruncateDest => .truncated
  | _, .writeDest d => .content d
  | _, .writeTempThenRename d => .content d

/-- Every state the destination file passes through, initial state included. -/
def fileStates : FileState → List FSOp → List FileState
  | s, [] => [s]
  | s, op :: ops => s :: fileStates (applyFSOp s op) ops

/-- A write sequence is atomic for a transition when the destination is never
observable in a state other than the old or the new content. -/
def AtomicTransition (init final : FileState) (ops : List FSOp) : Prop :=
  ∀ s ∈ fileStates init ops, s = init ∨ s = final

/-- Source SimpleJSONFileAdapter store: re-load the existing document (or the
skeleton), merge the incoming by-resource-server entries into its by_rs dict,
then write the whole document back under the user-only umask by truncating
and rewriting the destination in place. Returns the filesystem trace and the
written document; a load failure propagates and nothing is written. -/
def SimpleJSONFileAdapter.store (file : Option JSONValue) (sdkVersion : String)
    (byResourceServer : List (String × JSONValue)) :
    Except Unit (List FSOp × List (String × JSONValue)) :=
  match SimpleJSONFileAdapter.load file sdkVersion with
  | .error e => .error e
  | .ok doc =>
    let oldByRs :=
      match pyDictGet doc "by_rs" with
      | some (.obj d0) => d0
      | _ => []
    let newByRs := byResourceServer.foldl (fun d kv => pyDictSet d kv.1 kv.2) oldByRs
    let newDoc := pyDictSet doc "by_rs" (.obj newByRs)
    .ok ([.setUserOnlyUmask, .openTruncateDest, .writeDest (.obj newDoc)], newDoc)

def c1WitTok1 : TokenData :=
  { scope := some "profile openid email", access_token := some "tokenAuth",
    refresh_token := none, token_type := some "Bearer",
    expires_at_seconds := some 1539984535, resource_server := some "auth.globus.org" }

def c1WitTok2 : TokenData :=
  { scope := some "all", access_token := some "tokenWork",
    refresh_token := some "refreshWork", token_type := some "Bearer",
    expires_at_seconds := some 1539984535, resource_server := some "workhorse.org" }

def c9TokA : TokenData :=
  { scope := some "scopeA", access_token := some "tokenAAA", refresh_token := some "refA",
    token_type := some "Bearer", expires_at_seconds := some 777,
    resource_server := some "a.b" }

def c9TokB : TokenData :=
  { scope := some "scopeB", access_token := some "tokenBBB", refresh_token := some "refB",
    token_type := some "Bearer", expires_at_seconds := some 888,
    resource_server := some "a_b" }

def c3Tok : TokenData :=
  { scope := some "A B", access_token := some "tokenC3", refresh_token := none,
    token_type := some "Bearer", expires_at_seconds := some 999,
    resource_server := some "srv" }

def c4Tok : TokenData :=
  { scope := some "A", access_token := some "tokenC4", refresh_token := none,
    token_type := some "Bearer", expires_at_seconds := some 100,
    resource_server := some "srv4" }

def c2Tok : TokenData :=
  { scope := some "A", access_token := some "tokenC2", refresh_token := none,
    token_type := some "Bearer", expires_at_seconds := some 1000,
    resource_server := some "srv2" }

def c2WitTok : TokenData :=
  { scope := some "B", access_token := some "tokenC2w", refresh_token := none,
    token_type := some "Bearer", expires_at_seconds := some 5000,
    resource_server := some "srv2w" }

def c5Env : AuthEnv :=
  { store := none, now := 0, revokeOk := fun _ => true, isRemote := false,
    authUrl := "url", serverCode := "code", inputCode := "icode", exchangeResult := [] }

def c5WitEnv : AuthEnv :=
  { store := none, now := 3, revokeOk := fun _ => true, isRemote := true,
    authUrl := "u2", serverCode := "c2", inputCode := "i2", exchangeResult := [] }

def c6Tok : TokenData :=
  { scope := some "openid profile", access_token := some "tokenC6", refresh_token := none,
    token_type := some "Bearer", expires_at_seconds := some 999999,
    resource_server := some "srv6" }

def c6Env : AuthEnv :=
  { store := some (serialize_token_groups [c6Tok]), now := 10, revokeOk := fun _ => true,
    isRemote := false, authUrl := "u6", serverCode := "c6", inputCode := "i6",
    exchangeResult := [] }

def c8OldDocDict : List (String × JSONValue) :=
  [("format_version", .str "1.0"), ("by_rs", .obj [("rs1", .str "old")])]

def c8NewDocDict : List (String × JSONValue) :=
  [("format_version", .str "1.0"),
   ("by_rs", .obj [("rs1", .str "old"), ("rs2", .str "new")])]

def c8WitFileDict : List (String × JSONValue) :=
  [("format_version", .str "1.0"), ("by_rs", .obj [("keep", .str "kv")])]

/-! ## Theorems -/

theorem pyDictGet_pyDictSet {κ ε : Type} [DecidableEq κ] (d : List (κ × ε)) (k : κ) (v : ε)
    (k' : κ) : pyDictGet (pyDictSet d k v) k' = if k = k' then some v else pyDictGet d k' := by
  induction d with
  | nil =>
    by_cases h : k = k' <;> simp [pyDictSet, pyDictGet, h]
  | cons p d ih =>
    obtain ⟨k0, v0⟩ := p
    by_cases h0 : k0 = k
    · subst h0
      by_cases h : k0 = k' <;> simp [pyDictSet, pyDictGet, h]
    · have h0' : ¬ k = k0 := fun hh => h0 hh.symm
      by_cases h1 : k0 = k'
      · subst h1
        simp [pyDictSet, pyDictGet, h0, h0']
      · simp [pyDictSet, pyDictGet, h0, h1, ih]

theorem pyDictSet_of_not_mem {κ ε : Type} [DecidableEq κ] (d : List (κ × ε)) (k : κ) (v : ε)
    (h : k ∉ d.map Prod.fst) : pyDictSet d k v = d ++ [(k, v)] := by
  induction d with
  | nil => rfl
  | cons p d ih =>
    obtain ⟨k0, v0⟩ := p
    simp only [List.map_cons, List.mem_cons] at h
    push_neg at h
    have hne : ¬ k0 = k := fun he => h.1 he.symm
    simp [pyDictSet, hne, ih h.2]

theorem mem_keys_pyDictSet {κ ε : Type} [DecidableEq κ] (d : List (κ × ε)) (k : κ) (v : ε)
    (a : κ) (h : a ∈ (pyDictSet d k v).map Prod.fst) : a = k ∨ a ∈ d.map Prod.fst := by
  induction d with
  | nil => simpa [pyDictSet] using h
  | cons p d ih =>
    obtain ⟨k0, v0⟩ := p
    by_cases h0 : k0 = k
    · subst h0
      simpa [pyDictSet] using h
    · simp only [pyDictSet, h0, if_false, List.map_cons, List.mem_cons] at h
      rcases h with h | h
      · exact Or.inr (by simp [h])
      · rcases ih h with h | h
        · exact Or.inl h
        · exact Or.inr (by simp [h])

theorem keys_nodup_pyDictSet {κ ε : Type} [DecidableEq κ] (d : List (κ × ε)) (k : κ) (v : ε)
    (h : (d.map Prod.fst).Nodup) : ((pyDictSet d k v).map Prod.fst).Nodup := by
  induction d with
  | nil => simp [pyDictSet]
  | cons p d ih =>
    obtain ⟨k0, v0⟩ := p
    simp only [List.map_cons, List.nodup_cons] at h
    by_cases h0 : k0 = k
    · subst h0
      simpa [pyDictSet] using h
    · simp only [pyDictSet, h0, if_false, List.map_cons, List.nodup_cons]
      refine ⟨fun hmem => ?_, ih h.2⟩
      rcases mem_keys_pyDictSet d k v k0 hmem with h1 | h1
      · exact h0 h1
      · exact h.1 h1

theorem foldl_pyDictSet_fresh {κ ε : Type} [DecidableEq κ] :
    ∀ (d acc : List (κ × ε)), (d.map Prod.fst).Nodup →
      (∀ kv ∈ d, kv.1 ∉ acc.map Prod.fst) →
      d.foldl (fun s kv => pyDictSet s kv.1 kv.2) acc = acc ++ d := by
  intro d
  induction d with
  | nil => intro acc _ _; simp
  | cons p d ih =>
    intro acc hnodup hfresh
    obtain ⟨k, v⟩ := p
    simp only [List.map_cons, List.nodup_cons] at hnodup
    have hk : k ∉ acc.map Prod.fst := hfresh (k, v) (by simp)
    have hstep : pyDictSet acc k v = acc ++ [(k, v)] := pyDictSet_of_not_mem acc k v hk
    simp only [List.foldl_cons, hstep]
    rw [ih (acc ++ [(k, v)]) hnodup.2]
    · simp
    · intro kv hkv
      simp only [List.map_append, List.mem_append, List.map_cons, List.map_nil,
        List.mem_singleton]
      push_neg
      constructor
      · exact fun hmem => hfresh kv (by simp [hkv]) hmem
      · intro he
        exact hnodup.1 (he ▸ (List.mem_map.mpr ⟨kv, hkv, rfl⟩))

theorem toDigitsRevAux_fuel :
    ∀ (fuel1 fuel2 n : Nat), n ≤ fuel1 → n ≤ fuel2 →
      toDigitsRevAux fuel1 n = toDigitsRevAux fuel2 n := by
  intro fuel1
  induction fuel1 with
  | zero =>
    intro fuel2 n h1 _
    interval_cases n
    cases fuel2 <;> rfl
  | succ f1 ih =>
    intro fuel2 n h1 h2
    match n with
    | 0 => cases fuel2 <;> rfl
    | m + 1 =>
      match fuel2 with
      | 0 => omega
      | f2 + 1 =>
        show ((m + 1) % 10) :: toDigitsRevAux f1 ((m + 1) / 10) =
          ((m + 1) % 10) :: toDigitsRevAux f2 ((m + 1) / 10)
        have hdiv : (m + 1) / 10 ≤ m := by
          have := Nat.div_lt_self (Nat.succ_pos m) (show 1 < 10 by norm_num)
          omega
        rw [ih f2 ((m + 1) / 10) (by omega) (by omega)]

theorem toDigitsRev_zero : toDigitsRev 0 = [] := rfl

theorem toDigitsRev_succ (m : Nat) :
    toDigitsRev (m + 1) = ((m + 1) % 10) :: toDigitsRev ((m + 1) / 10) := by
  show toDigitsRevAux (m + 1) (m + 1) = ((m + 1) % 10) :: toDigitsRevAux ((m + 1) / 10) ((m + 1) / 10)
  show ((m + 1) % 10) :: toDigitsRevAux m ((m + 1) / 10) = _
  have hdiv : (m + 1) / 10 ≤ m := by
    have := Nat.div_lt_self (Nat.succ_pos m) (show 1 < 10 by norm_num)
    omega
  rw [toDigitsRevAux_fuel m ((m + 1) / 10) ((m + 1) / 10) hdiv (le_refl _)]

theorem digitVal_digitChr {d : Nat} (h : d < 10) : digitVal (digitChr d) = some d := by
  interval_cases d <;> rfl

theorem toDigitsRev_lt_ten : ∀ n, ∀ d ∈ toDigitsRev n, d < 10 := by
  intro n
  induction n using Nat.strong_induction_on with
  | _ n ih =>
    match n with
    | 0 => intro d hd; simp [toDigitsRev_zero] at hd
    | m + 1 =>
      intro d hd
      rw [toDigitsRev_succ] at hd
      rcases List.mem_cons.mp hd with h | h
      · subst h; exact Nat.mod_lt _ (by norm_num)
      · exact ih ((m + 1) / 10) (Nat.div_lt_self (Nat.succ_pos m) (by norm_num)) d h

theorem toDigitsRev_ne_nil {n : Nat} (h : n ≠ 0) : toDigitsRev n ≠ [] := by
  match n with
  | 0 => exact absurd rfl h
  | m + 1 => rw [toDigitsRev_succ]; simp

theorem foldl_digits_append (l : List Nat) (d : Nat) :
    List.foldl (fun acc x => acc * 10 + x) 0 (l ++ [d]) =
      10 * List.foldl (fun acc x => acc * 10 + x) 0 l + d := by
  rw [List.foldl_append]
  simp [Nat.mul_comm]

theorem foldl_toDigitsRev (n : Nat) :
    List.foldl (fun acc x => acc * 10 + x) 0 ((toDigitsRev n).reverse) = n := by
  induction n using Nat.strong_induction_on with
  | _ n ih =>
    match n with
    | 0 => simp [toDigitsRev_zero]
    | m + 1 =>
      rw [toDigitsRev_succ, List.reverse_cons, foldl_digits_append,
        ih ((m + 1) / 10) (Nat.div_lt_self (Nat.succ_pos m) (by norm_num))]
      exact Nat.div_add_mod (m + 1) 10

theorem foldl_digitChr (l : List Nat) (hl : ∀ d ∈ l, d < 10) (acc : Nat) :
    List.foldl (fun a c => a * 10 + (digitVal c).getD 0) acc (l.map digitChr) =
      List.foldl (fun a x => a * 10 + x) acc l := by
  induction l generalizing acc with
  | nil => rfl
  | cons x xs ih =>
    simp only [List.map_cons, List.foldl_cons]
    rw [digitVal_digitChr (hl x (by simp)), Option.getD_some]
    exact ih (fun d hd => hl d (by simp [hd])) _

theorem parseNat_natRepr (n : Nat) : parseNat (natRepr n) = some n := by
  by_cases h : n = 0
  · subst h; rfl
  · have hne : toDigitsRev n ≠ [] := toDigitsRev_ne_nil h
    have hdata : (natRepr n).data = ((toDigitsRev n).map digitChr).reverse := by
      simp [natRepr, h]
    have hdig : ∀ c ∈ (natRepr n).data, (digitVal c).isSome = true := by
      intro c hc
      rw [hdata] at hc
      rcases List.mem_map.mp (List.mem_reverse.mp hc) with ⟨d, hd, rfl⟩
      rw [digitVal_digitChr (toDigitsRev_lt_ten n d hd)]
      rfl
    have hnonempty : ¬ (natRepr n).data = [] := by
      rw [hdata]
      simp only [List.reverse_eq_nil_iff, List.map_eq_nil_iff]
      exact hne
    rw [parseNat]
    simp only [hnonempty, if_false]
    rw [if_pos (by rw [List.all_eq_true]; intro c hc; exact hdig c hc)]
    congr 1
    rw [hdata, ← List.map_reverse,
      foldl_digitChr _ (fun d hd => toDigitsRev_lt_ten n d (List.mem_reverse.mp hd)) 0,
      foldl_toDigitsRev]

/-! ## String helpers -/

theorem strData_append (a b : String) : (a ++ b).data = a.data ++ b.data := by
  cases a; cases b; rfl

theorem strExt {a b : String} (h : a.data = b.data) : a = b :=
  congrArg String.mk h

theorem splitAux_append (l : List Char) (h : ',' ∉ l) :
    ∀ (cs acc : List Char), splitAux (l ++ cs) acc = splitAux cs (l.reverse ++ acc) := by
  induction l with
  | nil => intro cs acc; simp
  | cons c l ih =>
    intro cs acc
    simp only [List.mem_cons] at h
    push_neg at h
    have hc : ¬ c = ',' := fun hh => h.1 hh.symm
    have hstep : splitAux ((c :: l) ++ cs) acc = splitAux (l ++ cs) (c :: acc) := by
      simp [splitAux, hc]
    rw [hstep, ih h.2]
    simp

theorem splitComma_joinComma (gs : List String) (hne : gs ≠ [])
    (h : ∀ g ∈ gs, ',' ∉ g.data) : splitComma (joinComma gs) = gs := by
  induction gs with
  | nil => exact absurd rfl hne
  | cons g gs ih =>
    match gs with
    | [] =>
      show splitAux (joinComma [g]).data [] = [g]
      have : (joinComma [g]).data = g.data ++ [] := by simp [joinComma]
      rw [this, splitAux_append g.data (h g (by simp)) [] []]
      simp [splitAux]
    | g2 :: gs' =>
      have hdata : (joinComma (g :: g2 :: gs')).data =
          g.data ++ (',' :: (joinComma (g2 :: gs')).data) := by
        show ((g ++ ",") ++ joinComma (g2 :: gs')).data = _
        rw [strData_append, strData_append]
        simp
      show splitAux (joinComma (g :: g2 :: gs')).data [] = g :: g2 :: gs'
      rw [hdata, splitAux_append g.data (h g (by simp)) _ []]
      simp only [splitAux, if_pos rfl, List.append_nil, List.reverse_reverse]
      have hrec : splitAux (joinComma (g2 :: gs')).data [] = g2 :: gs' :=
        ih (by simp) (fun g hg => h g (by simp [hg]))
      rw [hrec]
      cases g
      rfl

/-! ## Key disjointness of the flat serialization -/

theorem serialize_token_data (rs f : String) :
    (serialize_token rs f).data = (sanitize rs).data ++ '_' :: f.data := by
  show ((sanitize rs ++ "_") ++ f).data = _
  rw [strData_append, strData_append]
  simp

/-- No field name, prefixed by its underscore separator, is a suffix of
another field name: hence keys of distinct sanitized groups never collide. -/
theorem no_field_suffix :
    ∀ f1 ∈ TOKEN_KEYS, ∀ f2 ∈ TOKEN_KEYS, ¬ ('_' :: f2.data) <:+ f1.data := by decide

/-- No field name, prefixed by its underscore separator, is a suffix of the
token_groups index key. -/
theorem no_field_suffix_groups :
    ∀ f ∈ TOKEN_KEYS, ¬ ('_' :: f.data) <:+ CONFIG_TOKEN_GROUPS.data := by decide

theorem serialize_token_left_inj (r : String) {f g : String} :
    serialize_token r f = serialize_token r g ↔ f = g := by
  constructor
  · intro h
    have hd := congrArg String.data h
    rw [serialize_token_data, serialize_token_data] at hd
    have hc := List.append_cancel_left hd
    simp only [List.cons.injEq, true_and] at hc
    exact strExt hc
  · rintro rfl; rfl

theorem serialize_token_eq_iff {r1 r2 f1 f2 : String} (h1 : f1 ∈ TOKEN_KEYS)
    (h2 : f2 ∈ TOKEN_KEYS) :
    serialize_token r1 f1 = serialize_token r2 f2 ↔ sanitize r1 = sanitize r2 ∧ f1 = f2 := by
  constructor
  · intro h
    have hd : (sanitize r1).data ++ '_' :: f1.data = (sanitize r2).data ++ '_' :: f2.data := by
      have hd0 := congrArg String.data h
      rwa [serialize_token_data, serialize_token_data] at hd0
    rcases List.append_eq_append_iff.mp hd with ⟨e, he1, he2⟩ | ⟨e, he1, he2⟩
    · match e with
      | [] =>
        simp only [List.append_nil] at he1
        simp only [List.nil_append, List.cons.injEq, true_and] at he2
        exact ⟨(strExt he1).symm, strExt he2⟩
      | c :: e' =>
        simp only [List.cons_append, List.cons.injEq] at he2
        exact absurd ⟨e', he2.2.symm⟩ (no_field_suffix f1 h1 f2 h2)
    · match e with
      | [] =>
        simp only [List.append_nil] at he1
        simp only [List.nil_append, List.cons.injEq, true_and] at he2
        exact ⟨strExt he1, (strExt he2).symm⟩
      | c :: e' =>
        simp only [List.cons_append, List.cons.injEq] at he2
        exact absurd ⟨e', he2.2.symm⟩ (no_field_suffix f2 h2 f1 h1)
  · rintro ⟨hs, rfl⟩
    show sanitize r1 ++ "_" ++ f1 = sanitize r2 ++ "_" ++ f1
    rw [hs]

theorem serialize_token_ne_groups {f : String} (hf : f ∈ TOKEN_KEYS) (r : String) :
    serialize_token r f ≠ CONFIG_TOKEN_GROUPS := by
  intro h
  have hd := congrArg String.data h
  rw [serialize_token_data] at hd
  exact no_field_suffix_groups f hf ⟨(sanitize r).data, hd⟩

/-! ## Lookup lemmas for the serialized section -/

theorem serializeRecord_get_frame (d : List (String × String)) (t : TokenData) (k : String)
    (h : ∀ f ∈ TOKEN_KEYS, k ≠ serialize_token (rsOf t) f) :
    pyDictGet (serializeRecord d t) k = pyDictGet d k := by
  have h1 := h "scope" (by decide)
  have h2 := h "access_token" (by decide)
  have h3 := h "refresh_token" (by decide)
  have h4 := h "token_type" (by decide)
  have h5 := h "expires_at_seconds" (by decide)
  have h6 := h "resource_server" (by decide)
  simp only [serializeRecord, TOKEN_KEYS, List.foldl_cons, List.foldl_nil]
  rw [pyDictGet_pyDictSet, if_neg (fun hh => h6 hh.symm),
    pyDictGet_pyDictSet, if_neg (fun hh => h5 hh.symm),
    pyDictGet_pyDictSet, if_neg (fun hh => h4 hh.symm),
    pyDictGet_pyDictSet, if_neg (fun hh => h3 hh.symm),
    pyDictGet_pyDictSet, if_neg (fun hh => h2 hh.symm),
    pyDictGet_pyDictSet, if_neg (fun hh => h1 hh.symm)]

theorem serializeRecord_get_hit (d : List (String × String)) (t : TokenData) {f : String}
    (hf : f ∈ TOKEN_KEYS) :
    pyDictGet (serializeRecord d t) (serialize_token (rsOf t) f) = some (fieldValue t f) := by
  fin_cases hf <;>
    simp [serializeRecord, TOKEN_KEYS, pyDictGet_pyDictSet, serialize_token_left_inj]

theorem serializeFold_get_frame (tokens : List TokenData) :
    ∀ (d : List (String × String)) (k : String),
      (∀ t ∈ tokens, ∀ f ∈ TOKEN_KEYS, k ≠ serialize_token (rsOf t) f) →
      pyDictGet (tokens.foldl serializeRecord d) k = pyDictGet d k := by
  induction tokens with
  | nil => intro d k _; rfl
  | cons t0 rest ih =>
    intro d k h
    simp only [List.foldl_cons]
    rw [ih (serializeRecord d t0) k (fun t ht f hf => h t (by simp [ht]) f hf)]
    exact serializeRecord_get_frame d t0 k (fun f hf => h t0 (by simp) f hf)

theorem serializeFold_get_hit (tokens : List TokenData) :
    ∀ (d : List (String × String)) {t : TokenData} (_ : t ∈ tokens) {f : String}
      (_ : f ∈ TOKEN_KEYS)
      (_ : tokens.Pairwise (fun a b => sanitize (rsOf a) ≠ sanitize (rsOf b))),
      pyDictGet (tokens.foldl serializeRecord d) (serialize_token (rsOf t) f) =
        some (fieldValue t f) := by
  induction tokens with
  | nil => intro d t ht; exact absurd ht (by simp)
  | cons t0 rest ih =>
    intro d t ht f hf hinj
    rw [List.pairwise_cons] at hinj
    simp only [List.foldl_cons]
    rcases List.mem_cons.mp ht with rfl | hmem
    · rw [serializeFold_get_frame rest (serializeRecord d t) (serialize_token (rsOf t) f)
        (fun t' ht' f' hf' heq => hinj.1 t' ht'
          ((serialize_token_eq_iff hf hf').mp heq).1)]
      exact serializeRecord_get_hit d t hf
    · exact ih (serializeRecord d t0) hmem hf hinj.2

theorem serialize_token_groups_get_index (tokens : List TokenData) :
    pyDictGet (serialize_token_groups tokens) CONFIG_TOKEN_GROUPS =
      some (joinComma (tokens.map (fun t => serialize_token (rsOf t)))) := by
  unfold serialize_token_groups
  rw [pyDictGet_pyDictSet, if_pos rfl]

theorem serialize_token_groups_get_field (tokens : List TokenData) {t : TokenData}
    (ht : t ∈ tokens) {f : String} (hf : f ∈ TOKEN_KEYS)
    (hinj : tokens.Pairwise (fun a b => sanitize (rsOf a) ≠ sanitize (rsOf b))) :
    pyDictGet (serialize_token_groups tokens) (serialize_token (rsOf t) f) =
      some (fieldValue t f) := by
  unfold serialize_token_groups
  rw [pyDictGet_pyDictSet,
    if_neg (fun hh => serialize_token_ne_groups hf (rsOf t) hh.symm)]
  exact serializeFold_get_hit tokens [] ht hf hinj

/-! ## The serialized section has no duplicate keys, hence save_tokens into a
fresh section stores exactly the serialized items -/

theorem keys_nodup_serializeRecord (d : List (String × String)) (t : TokenData)
    (h : (d.map Prod.fst).Nodup) : ((serializeRecord d t).map Prod.fst).Nodup := by
  simp only [serializeRecord, TOKEN_KEYS, List.foldl_cons, List.foldl_nil]
  exact keys_nodup_pyDictSet _ _ _ (keys_nodup_pyDictSet _ _ _ (keys_nodup_pyDictSet _ _ _
    (keys_nodup_pyDictSet _ _ _ (keys_nodup_pyDictSet _ _ _ (keys_nodup_pyDictSet _ _ _ h)))))

theorem keys_nodup_serializeFold (tokens : List TokenData) :
    ∀ (d : List (String × String)), (d.map Prod.fst).Nodup →
      ((tokens.foldl serializeRecord d).map Prod.fst).Nodup := by
  induction tokens with
  | nil => intro d h; exact h
  | cons t0 rest ih =>
    intro d h
    simp only [List.foldl_cons]
    exact ih _ (keys_nodup_serializeRecord d t0 h)

theorem keys_nodup_serialize_token_groups (tokens : List TokenData) :
    ((serialize_token_groups tokens).map Prod.fst).Nodup := by
  unfold serialize_token_groups
  exact keys_nodup_pyDictSet _ _ _ (keys_nodup_serializeFold tokens [] (by simp))

theorem save_tokens_fresh (tokens : List TokenData) :
    save_tokens tokens none = serialize_token_groups tokens := by
  unfold save_tokens
  rw [show ((none : Option (List (String × String))).getD []) = [] from rfl,
    foldl_pyDictSet_fresh _ [] (keys_nodup_serialize_token_groups tokens) (by simp)]
  simp

/-! ## Deserialization round trip -/

theorem deserialize_serialize_token (rs f : String) :
    deserialize_token (serialize_token rs) f = serialize_token rs f := by
  apply strExt
  show ((serialize_token rs "") ++ f).data = _
  rw [strData_append, serialize_token_data, serialize_token_data]
  simp

theorem fieldValue_scope (t : TokenData) : fieldValue t "scope" = t.scope.getD "" := rfl

theorem fieldValue_access_token (t : TokenData) :
    fieldValue t "access_token" = t.access_token.getD "" := rfl

theorem fieldValue_refresh_token (t : TokenData) :
    fieldValue t "refresh_token" = t.refresh_token.getD "" := rfl

theorem fieldValue_token_type (t : TokenData) :
    fieldValue t "token_type" = t.token_type.getD "" := rfl

theorem fieldValue_expires (t : TokenData) :
    fieldValue t "expires_at_seconds" = (t.expires_at_seconds.map natRepr).getD "" := rfl

theorem fieldValue_resource_server (t : TokenData) :
    fieldValue t "resource_server" = t.resource_server.getD "" := rfl

theorem pyFalsyStr_getD {o : Option String} (h : o ≠ some "") :
    pyFalsyStr (some (o.getD "")) = o := by
  cases o with
  | none => simp [pyFalsyStr]
  | some s =>
    have hs : ¬ s = "" := fun hh => h (by rw [hh])
    simp [pyFalsyStr, hs]

theorem deserializeGroup_serialized (tokens : List TokenData) {t : TokenData}
    (ht : t ∈ tokens)
    (hinj : tokens.Pairwise (fun a b => sanitize (rsOf a) ≠ sanitize (rsOf b)))
    (hwf : WellFormedToken t) :
    deserializeGroup (serialize_token_groups tokens) (serialize_token (rsOf t)) = some t := by
  obtain ⟨hscn, hsc, hacn, hac, hexn, hex0, hrsn, hrs, hrf, htt⟩ := hwf
  obtain ⟨n, hn⟩ : ∃ n, t.expires_at_seconds = some n := by
    cases hx : t.expires_at_seconds with
    | none => exact absurd hx hexn
    | some n => exact ⟨n, rfl⟩
  have hget : ∀ f ∈ TOKEN_KEYS,
      pyDictGet (serialize_token_groups tokens) (serialize_token (rsOf t) f) =
        some (fieldValue t f) :=
    fun f hf => serialize_token_groups_get_field tokens ht hf hinj
  have g1 := hget "scope" (by decide)
  have g2 := hget "access_token" (by decide)
  have g3 := hget "refresh_token" (by decide)
  have g4 := hget "token_type" (by decide)
  have g5 := hget "expires_at_seconds" (by decide)
  have g6 := hget "resource_server" (by decide)
  have h0 : ¬ n = 0 := fun hh => hex0 (by rw [hn, hh])
  simp only [deserializeGroup, deserialize_serialize_token, g1, g2, g3, g4, g5, g6,
    fieldValue_scope, fieldValue_access_token, fieldValue_refresh_token,
    fieldValue_token_type, fieldValue_expires, fieldValue_resource_server, hn,
    Option.map_some', Option.getD_some, parseNat_natRepr, h0, if_false,
    pyFalsyStr_getD hsc, pyFalsyStr_getD hac, pyFalsyStr_getD hrf, pyFalsyStr_getD htt,
    pyFalsyStr_getD hrs, Option.some.injEq]
  cases t
  simp_all

theorem deserializeFold (store : List (String × String)) (ts : List TokenData) :
    ∀ (acc : List (Option String × TokenData)),
      (∀ t ∈ ts, deserializeGroup store (serialize_token (rsOf t)) = some t) →
      (∀ t ∈ ts, t.resource_server ∉ acc.map Prod.fst) →
      ts.Pairwise (fun a b => a.resource_server ≠ b.resource_server) →
      List.foldlM
          (fun acc g => (deserializeGroup store g).map
            (fun t => pyDictSet acc t.resource_server t))
          acc (ts.map (fun t => serialize_token (rsOf t))) =
        some (acc ++ ts.map (fun t => (t.resource_server, t))) := by
  induction ts with
  | nil => intro acc _ _ _; simp
  | cons t0 rest ih =>
    intro acc hdes hfresh hpw
    rw [List.pairwise_cons] at hpw
    have hfresh2 : ∀ t ∈ rest,
        t.resource_server ∉ (acc ++ [(t0.resource_server, t0)]).map Prod.fst := by
      intro t ht
      simp only [List.map_append, List.mem_append, List.map_cons, List.map_nil,
        List.mem_singleton]
      push_neg
      exact ⟨fun hmem => hfresh t (by simp [ht]) hmem, fun he => (hpw.1 t ht) he.symm⟩
    have hih := ih (acc ++ [(t0.resource_server, t0)]) (fun t ht => hdes t (by simp [ht]))
      hfresh2 hpw.2
    simp only [List.map_cons, List.foldlM_cons, hdes t0 (by simp), Option.map_some']
    rw [pyDictSet_of_not_mem acc _ _ (hfresh t0 (by simp))]
    simpa using hih

theorem pyFalsyS_false {o : Option String} (h1 : o ≠ none) (h2 : o ≠ some "") :
    pyFalsyS o = false := by
  cases o with
  | none => exact absurd rfl h1
  | some s =>
    simp only [pyFalsyS, beq_eq_false_iff_ne, ne_eq]
    exact fun hh => h2 (by rw [hh])

theorem pyFalsyN_false {o : Option Nat} (h1 : o ≠ none) (h2 : o ≠ some 0) :
    pyFalsyN o = false := by
  cases o with
  | none => exact absurd rfl h1
  | some n =>
    simp only [pyFalsyN, beq_eq_false_iff_ne, ne_eq]
    exact fun hh => h2 (by rw [hh])

theorem missingRequired_false_of_wf (t : TokenData) (h : WellFormedToken t) :
    missingRequired t = false := by
  obtain ⟨h1, h2, h3, h4, h5, h6, h7, h8, -, -⟩ := h
  unfold missingRequired
  rw [pyFalsyS_false h1 h2, pyFalsyS_false h3 h4, pyFalsyN_false h5 h6, pyFalsyS_false h7 h8]
  rfl

theorem comma_not_mem_group {t : TokenData} (h : ',' ∉ (rsOf t).data) :
    ',' ∉ (serialize_token (rsOf t)).data := by
  rw [serialize_token_data]
  intro hmem
  rcases List.mem_append.mp hmem with hm | hm
  · rcases List.mem_map.mp (by simpa [sanitize] using hm) with ⟨c, hc, hcs⟩
    by_cases hcdot : c = '.'
    · rw [hcdot] at hcs
      simp [sanitizeChar] at hcs
    · rw [show sanitizeChar c = c from if_neg hcdot] at hcs
      exact h (hcs ▸ hc)
  · simp at hm

theorem deserialize_token_groups_serialized (tokens : List TokenData)
    (hne : tokens ≠ [])
    (hwf : ∀ t ∈ tokens, WellFormedToken t)
    (hcomma : ∀ t ∈ tokens, ',' ∉ (rsOf t).data)
    (hinj : tokens.Pairwise (fun a b => sanitize (rsOf a) ≠ sanitize (rsOf b))) :
    deserialize_token_groups (serialize_token_groups tokens) =
      some (tokens.map (fun t => (t.resource_server, t))) := by
  unfold deserialize_token_groups
  rw [serialize_token_groups_get_index]
  have hsplit : splitComma (joinComma (tokens.map (fun t => serialize_token (rsOf t)))) =
      tokens.map (fun t => serialize_token (rsOf t)) := by
    apply splitComma_joinComma
    · simp [hne]
    · intro g hg
      rcases List.mem_map.mp hg with ⟨t, ht, rfl⟩
      exact comma_not_mem_group (hcomma t ht)
  show List.foldlM
      (fun acc g => (deserializeGroup (serialize_token_groups tokens) g).map
        (fun t => pyDictSet acc t.resource_server t))
      [] (splitComma (joinComma (tokens.map (fun t => serialize_token (rsOf t))))) =
    some (tokens.map (fun t => (t.resource_server, t)))
  rw [hsplit]
  have hrsdistinct : tokens.Pairwise (fun a b => a.resource_server ≠ b.resource_server) := by
    refine hinj.imp ?_
    intro a b hab hr
    exact hab (by rw [rsOf, rsOf, hr])
  rw [deserializeFold (serialize_token_groups tokens) tokens []
    (fun t ht => deserializeGroup_serialized tokens ht hinj (hwf t ht))
    (by simp) hrsdistinct]
  simp

theorem load_tokens_eval (d : List (String × String))
    (loaded : List (Option String × TokenData)) (requested : List String) (check : Bool)
    (now : Nat) (hde : deserialize_token_groups d = some loaded) :
    load_tokens (some d) requested check now =
      (if loaded.any (fun p => missingRequired p.2) then .error .configError
       else if (!requested.isEmpty) && (loadedScopes loaded).any
           (fun s => !(requested.any (fun r => r == s))) then .error .scopesMismatch
       else if check && loaded.any (fun p => p.2.expires_at_seconds.getD 0 ≤ now) then
         .error .expired
       else .ok loaded) := by
  show load_tokens_section d requested check now = _
  unfold load_tokens_section
  rw [hde]

theorem save_load_roundtrip_general (tokens : List TokenData) (now : Nat)
    (hne : tokens ≠ [])
    (hwf : ∀ t ∈ tokens, WellFormedToken t)
    (hcomma : ∀ t ∈ tokens, ',' ∉ (rsOf t).data)
    (hinj : tokens.Pairwise (fun a b => sanitize (rsOf a) ≠ sanitize (rsOf b))) :
    load_tokens (some (save_tokens tokens none)) [] false now =
      .ok (tokens.map (fun t => (t.resource_server, t))) := by
  have hdeser := deserialize_token_groups_serialized tokens hne hwf hcomma hinj
  rw [save_tokens_fresh,
    load_tokens_eval _ _ [] false now hdeser]
  have hreq : (tokens.map (fun t => (t.resource_server, t))).any
      (fun p => missingRequired p.2) = false := by
    rw [List.any_eq_false]
    intro p hp
    rcases List.mem_map.mp hp with ⟨t, ht, rfl⟩
    simp [missingRequired_false_of_wf t (hwf t ht)]
  simp [hreq]

theorem pyDictGet_foldl_pyDictSet_frame {κ ε : Type} [DecidableEq κ]
    (items : List (κ × ε)) :
    ∀ (d : List (κ × ε)) (k : κ), (∀ kv ∈ items, kv.1 ≠ k) →
      pyDictGet (items.foldl (fun d kv => pyDictSet d kv.1 kv.2) d) k = pyDictGet d k := by
  induction items with
  | nil => intro d k _; rfl
  | cons kv0 rest ih =>
    intro d k h
    simp only [List.foldl_cons]
    rw [ih (pyDictSet d kv0.1 kv0.2) k (fun kv hkv => h kv (by simp [hkv])),
      pyDictGet_pyDictSet, if_neg (h kv0 (by simp))]

/-! ## Claim theorems -/

/-- Claim C1, as stated, fails: the record below is well formed in the sense
of the claim (scope, access_token, expires_at_seconds and resource_server all
present, refresh_token absent), yet saving and loading it back does not
reproduce it, because its resource server contains a comma, the separator of
the token_groups index value, so deserialization splits the single group into
two bogus groups and load_tokens raises ConfigError. -/
theorem C1_counterexample :
    WellFormedToken
      { scope := some "openid", access_token := some "tokenA", refresh_token := none,
        token_type := some "Bearer", expires_at_seconds := some 100,
        resource_server := some "a,b" } ∧
    load_tokens
      (some (save_tokens
        [{ scope := some "openid", access_token := some "tokenA", refresh_token := none,
           token_type := some "Bearer", expires_at_seconds := some 100,
           resource_server := some "a,b" }] none)) [] false 0 =
      .error .configError := by
  constructor
  · decide
  · decide

/-- Claim C1 (amended): for every nonempty well-formed CredentialSet whose
resource-server identifiers contain no comma and whose sanitized identifiers
are pairwise distinct, save_tokens followed by load_tokens with no requested
scopes and expiry checking disabled yields field-for-field equal records,
with absent refresh_token or token_type coming back as absent, never as an
empty string. -/
theorem C1_roundtrip (tokens : List TokenData) (now : Nat)
    (hne : tokens ≠ [])
    (hwf : ∀ t ∈ tokens, WellFormedToken t)
    (hcomma : ∀ t ∈ tokens, ',' ∉ (rsOf t).data)
    (hinj : tokens.Pairwise (fun a b => sanitize (rsOf a) ≠ sanitize (rsOf b))) :
    load_tokens (some (save_tokens tokens none)) [] false now =
      .ok (tokens.map (fun t => (t.resource_server, t))) :=
  save_load_roundtrip_general tokens now hne hwf hcomma hinj

theorem C1_roundtrip_witness :
    load_tokens (some (save_tokens [c1WitTok1, c1WitTok2] none)) [] false 7 =
      .ok [(some "auth.globus.org", c1WitTok1), (some "workhorse.org", c1WitTok2)] := by
  have h := C1_roundtrip [c1WitTok1, c1WitTok2] 7 (by decide) (by decide) (by decide)
    (by decide)
  simpa [c1WitTok1, c1WitTok2] using h

/-- Claim C9: the sectioned key mangling is not injective. Whenever two
resource servers sanitize to the same string (for example a.b and a_b, which
differ only by dot versus underscore), every serialized key of the one equals
the corresponding key of the other; consequently a credential set holding
both such records does not round trip: the records of a.b and a_b collide in
the flat section, the second record overwrites the first field by field, and
the loaded set holds a single record carrying the second values. -/
theorem C9_sanitize_collision :
    (∀ rs1 rs2 : String, sanitize rs1 = sanitize rs2 →
      ∀ f : String, serialize_token rs1 f = serialize_token rs2 f) ∧
    sanitize "a.b" = sanitize "a_b" ∧
    load_tokens (some (save_tokens [c9TokA, c9TokB] none)) [] false 0 =
      .ok [(some "a_b", c9TokB)] ∧
    load_tokens (some (save_tokens [c9TokA, c9TokB] none)) [] false 0 ≠
      .ok ([c9TokA, c9TokB].map (fun t => (t.resource_server, t))) := by
  refine ⟨?_, by decide, by decide, by decide⟩
  intro rs1 rs2 h f
  show sanitize rs1 ++ "_" ++ f = sanitize rs2 ++ "_" ++ f
  rw [h]

theorem C9_sanitize_collision_witness :
    serialize_token "a.b" "scope" = serialize_token "a_b" "scope" :=
  C9_sanitize_collision.1 "a.b" "a_b" (by decide) "scope"

/-- Claim C3: with a nonempty collection of requested scopes, and a stored
section whose records deserialize and pass the required-field check,
load_tokens raises RequestedScopesMismatch exactly when the union of the
stored scopes is not contained in the requested scopes. -/
theorem C3_scope_gate (d : List (String × String)) (loaded : List (Option String × TokenData))
    (requested : List String) (check : Bool) (now : Nat)
    (hde : deserialize_token_groups d = some loaded)
    (hreq : loaded.any (fun p => missingRequired p.2) = false)
    (hne : requested ≠ []) :
    (load_tokens (some d) requested check now = .error .scopesMismatch ↔
      ¬ (loadedScopes loaded ⊆ requested)) := by
  rw [load_tokens_eval d loaded requested check now hde]
  have hEmpty : requested.isEmpty = false := by
    cases requested with
    | nil => exact absurd rfl hne
    | cons a l => rfl
  simp only [hreq, Bool.false_eq_true, if_false, hEmpty, Bool.not_false, Bool.true_and]
  by_cases hc :
      (loadedScopes loaded).any (fun s => !(requested.any (fun r => r == s))) = true
  · rw [if_pos hc]
    constructor
    · intro _
      rcases List.any_eq_true.mp hc with ⟨s, hs, hb⟩
      have hbnot : requested.any (fun r => r == s) = false := by
        cases hx : requested.any (fun r => r == s) with
        | false => rfl
        | true => rw [hx] at hb; exact absurd hb (by decide)
      intro hsub
      have hmem := hsub hs
      have htrue : requested.any (fun r => r == s) = true :=
        List.any_eq_true.mpr ⟨s, hmem, by simp⟩
      rw [htrue] at hbnot
      cases hbnot
    · intro _
      rfl
  · rw [if_neg hc]
    have hanyf : (loadedScopes loaded).any (fun s => !(requested.any (fun r => r == s))) =
        false := by
      cases hx : (loadedScopes loaded).any (fun s => !(requested.any (fun r => r == s))) with
      | false => rfl
      | true => exact absurd hx hc
    have hsub : loadedScopes loaded ⊆ requested := by
      intro s hs
      have hnb := List.any_eq_false.mp hanyf s hs
      cases hy : requested.any (fun r => r == s) with
      | true =>
        rcases List.any_eq_true.mp hy with ⟨r, hr, hrs⟩
        have : r = s := by simpa using hrs
        exact this ▸ hr
      | false => simp [hy] at hnb
    constructor
    · intro hl
      exfalso
      split at hl <;> simp_all
    · intro hn
      exact absurd hsub hn

theorem C3_scope_gate_witness :
    load_tokens (some (serialize_token_groups [c3Tok])) ["A"] true 0 =
      .error .scopesMismatch ∧
    load_tokens (some (serialize_token_groups [c3Tok])) ["A", "B", "C"] false 0 =
      .ok [(some "srv", c3Tok)] := by
  constructor
  · exact (C3_scope_gate _ [(some "srv", c3Tok)] ["A"] true 0 (by decide) (by decide)
      (by decide)).mpr (by decide)
  · decide

/-- Claim C4: if some stored record is at or past its expiry when the section
deserializes and passes the required-field check, load_tokens with no
requested scopes raises LoadedTokensExpired when expiry checking is enabled,
and returns the very same records when it is disabled. -/
theorem C4_expiry_gate (d : List (String × String)) (loaded : List (Option String × TokenData))
    (now : Nat)
    (hde : deserialize_token_groups d = some loaded)
    (hreq : loaded.any (fun p => missingRequired p.2) = false)
    (hexp : ∃ p ∈ loaded, p.2.expires_at_seconds.getD 0 ≤ now) :
    load_tokens (some d) [] true now = .error .expired ∧
    load_tokens (some d) [] false now = .ok loaded := by
  constructor
  · rw [load_tokens_eval d loaded [] true now hde]
    have hany : loaded.any (fun p => p.2.expires_at_seconds.getD 0 ≤ now) = true := by
      rcases hexp with ⟨p, hp, hle⟩
      exact List.any_eq_true.mpr ⟨p, hp, by simpa using hle⟩
    simp [hreq, hany]
  · rw [load_tokens_eval d loaded [] false now hde]
    simp [hreq]

theorem C4_expiry_gate_witness :
    load_tokens (some (serialize_token_groups [c4Tok])) [] true 200 = .error .expired ∧
    load_tokens (some (serialize_token_groups [c4Tok])) [] false 200 =
      .ok [(some "srv4", c4Tok)] :=
  C4_expiry_gate (serialize_token_groups [c4Tok]) [(some "srv4", c4Tok)] 200
    (by decide) (by decide) (by decide)

/-- Claim C2, as stated, fails: with a stored live (non-expired) record and a
revoke endpoint whose call raises, clear_tokens propagates the revoke failure
to the caller and deletes nothing: the section is returned unchanged. The try
block of the source catches only LoadedTokensExpired and ConfigError, and its
own docstring states that AuthAPIError propagates for live tokens. -/
theorem C2_counterexample :
    clear_tokens (some (serialize_token_groups [c2Tok])) (fun _ => false) 0 =
      (some (serialize_token_groups [c2Tok]), .raised .revokeFailed) := by
  decide

/-- Claim C2 (amended): when the stored credential set loads as live tokens
and the revocation loop fails on some record, clear_tokens propagates the
failure and performs no deletion: the backend section is left unchanged. Only
load-time ConfigError is caught and logged; expired tokens skip revocation
but are still deleted. -/
theorem C2_revoke_propagation (sec : Option (List (String × String)))
    (revokeOk : String → Bool) (now : Nat) (l : List (Option String × TokenData))
    (hload : load_tokens sec [] true now = .ok l)
    (hrv : revokeAll revokeOk l = false) :
    clear_tokens sec revokeOk now = (sec, .raised .revokeFailed) := by
  unfold clear_tokens
  rw [hload]
  simp [hrv]

theorem C2_revoke_propagation_witness :
    clear_tokens (some (serialize_token_groups [c2WitTok])) (fun _ => false) 10 =
      (some (serialize_token_groups [c2WitTok]), .raised .revokeFailed) :=
  C2_revoke_propagation (some (serialize_token_groups [c2WitTok])) (fun _ => false) 10
    [(some "srv2w", c2WitTok)] (by decide) (by decide)

/-- Claim C5, as stated, fails on one input: the unaccepted-option check is
written as any(unaccepted) over the list of unknown key names, so Python
string truthiness decides it, and the one falsy key name, the empty string,
slips through: invoking the flow with an empty-string option name raises no
error and the flow proceeds, performing load, clear and the rest. -/
theorem C5_counterexample :
    (native_auth "host" "cfg" [("", .vBool true)] c5Env).1 ≠ .error .usageError ∧
    (native_auth "host" "cfg" [("", .vBool true)] c5Env).2.1 ≠ [] := by
  constructor
  · decide
  · decide

/-- Claim C5 (amended): whenever the keyword arguments contain at least one
option name outside the known default-option set that is a nonempty string,
native_auth raises ValueError (the UsageError of the spec taxonomy)
immediately: the outcome is the error, the effect trace is empty (no load,
clear, authorize, exchange or save), and the store is untouched. -/
theorem C5_usage_error (hostname cfgfile : String) (kwargs : List (String × OptValue))
    (env : AuthEnv)
    (h : ∃ k ∈ kwargs.map Prod.fst,
      k ∉ (NATIVE_AUTH_DEFAULTS hostname cfgfile).map Prod.fst ∧ k ≠ "") :
    native_auth hostname cfgfile kwargs env = (.error .usageError, [], env.store) := by
  rcases h with ⟨k, hk, hnk, hne⟩
  have hcond : ((kwargs.map Prod.fst).filter
      (fun k => !(((NATIVE_AUTH_DEFAULTS hostname cfgfile).map Prod.fst).any
        (fun k0 => k0 == k)))).any (fun k => !(k == "")) = true := by
    apply List.any_eq_true.mpr
    refine ⟨k, ?_, ?_⟩
    · apply List.mem_filter.mpr
      refine ⟨hk, ?_⟩
      have hanyf : ((NATIVE_AUTH_DEFAULTS hostname cfgfile).map Prod.fst).any
          (fun k0 => k0 == k) = false := by
        apply List.any_eq_false.mpr
        intro k0 hk0 hbeq
        have hkeq : k0 = k := by simpa using hbeq
        exact hnk (hkeq ▸ hk0)
      rw [hanyf]
      rfl
    · have hb : (k == "") = false := by rw [beq_eq_false_iff_ne]; exact hne
      rw [hb]
      rfl
  simp only [native_auth]
  rw [hcond]
  simp

theorem C5_usage_error_witness :
    native_auth "host" "cfg" [("bogus_option", .vNat 1)] c5WitEnv =
      (.error .usageError, [], c5WitEnv.store) :=
  C5_usage_error "host" "cfg" [("bogus_option", .vNat 1)] c5WitEnv (by decide)

/-- Claim C6: with every keyword argument drawn from the known option set and
force_login resolving to False, if loading the stored credential set for the
resolved section succeeds validation, native_auth returns exactly the loaded
credential set, its only effect is that one load: no clear, no authorization
request, no listener interaction, no code exchange and no save occur, and the
store is unchanged. -/
theorem C6_cached_return (hostname cfgfile : String) (kwargs : List (String × OptValue))
    (env : AuthEnv) (loaded : List (Option String × TokenData))
    (hkw : ∀ k ∈ kwargs.map Prod.fst, k ∈ (NATIVE_AUTH_DEFAULTS hostname cfgfile).map Prod.fst)
    (hfl : getOpt (resolveOpts hostname cfgfile kwargs) "force_login" = .vBool false)
    (hload : load_tokens env.store
        (scopeIter (getOpt (resolveOpts hostname cfgfile kwargs) "requested_scopes"))
        (getOpt (resolveOpts hostname cfgfile kwargs) "check_tokens_expired" ==
          OptValue.vBool true) env.now = .ok loaded) :
    native_auth hostname cfgfile kwargs env =
      (.ok loaded, [.loadTok (resolvedSection (resolveOpts hostname cfgfile kwargs))],
        env.store) := by
  have hcond : ((kwargs.map Prod.fst).filter
      (fun k => !(((NATIVE_AUTH_DEFAULTS hostname cfgfile).map Prod.fst).any
        (fun k0 => k0 == k)))).any (fun k => !(k == "")) = false := by
    have hfilter : (kwargs.map Prod.fst).filter
        (fun k => !(((NATIVE_AUTH_DEFAULTS hostname cfgfile).map Prod.fst).any
          (fun k0 => k0 == k))) = [] := by
      apply List.filter_eq_nil_iff.mpr
      intro k hk
      have hany : ((NATIVE_AUTH_DEFAULTS hostname cfgfile).map Prod.fst).any
          (fun k0 => k0 == k) = true :=
        List.any_eq_true.mpr ⟨k, hkw k hk, by simp⟩
      simp [hany]
    rw [hfilter]
    rfl
  simp only [native_auth]
  rw [hcond]
  simp only [Bool.false_eq_true, if_false]
  rw [hfl]
  simp only [beq_self_eq_true, if_true]
  rw [hload]

theorem C6_cached_return_witness :
    native_auth "host6" "cfg6" [] c6Env =
      (.ok [(some "srv6", c6Tok)],
       [.loadTok (resolvedSection (resolveOpts "host6" "cfg6" []))], c6Env.store) :=
  C6_cached_return "host6" "cfg6" [] c6Env [(some "srv6", c6Tok)]
    (by simp) (by decide) (by decide)

/-- Claim C10: when the local listener is disabled (no_local_server is True),
the resolved options replace a redirect target still equal to the default
local-listener value with the hosted auth-code display page, and leave any
other caller-supplied redirect target unchanged; this happens during option
resolution, before the authorization request is constructed. -/
theorem C10_redirect_default_switch (hostname cfgfile : String)
    (kwargs : List (String × OptValue))
    (h : getOpt (mergeOpts hostname cfgfile kwargs) "no_local_server" = .vBool true) :
    getOpt (resolveOpts hostname cfgfile kwargs) "redirect_uri" =
      (if getOpt (mergeOpts hostname cfgfile kwargs) "redirect_uri" =
          .vStr "http://localhost:8890/" then .vStr AUTH_CODE_REDIRECT
       else getOpt (mergeOpts hostname cfgfile kwargs) "redirect_uri") := by
  simp only [resolveOpts]
  by_cases hr : getOpt (mergeOpts hostname cfgfile kwargs) "redirect_uri" =
      .vStr "http://localhost:8890/"
  · rw [if_pos ⟨h, hr⟩, if_pos hr]
    show (pyDictGet (pyDictSet (mergeOpts hostname cfgfile kwargs) "redirect_uri"
      (.vStr AUTH_CODE_REDIRECT)) "redirect_uri").getD .vNone = .vStr AUTH_CODE_REDIRECT
    rw [pyDictGet_pyDictSet, if_pos rfl]
    rfl
  · rw [if_neg (fun hc => hr hc.2), if_neg hr]

theorem C10_redirect_default_switch_witness :
    getOpt (resolveOpts "h10" "c10" [("no_local_server", OptValue.vBool true)])
      "redirect_uri" = .vStr AUTH_CODE_REDIRECT := by
  have hthm := C10_redirect_default_switch "h10" "c10"
    [("no_local_server", OptValue.vBool true)] (by decide)
  rw [hthm]
  decide

/-- Claim C7: loading with no backing document yields the fresh empty
envelope at the current format version 1.0 with an empty by-resource-server
dict rather than failing; loading an existing dict document whose
format_version is not a supported version string, or whose by_rs entry is
absent or not a dict, raises in every case. -/
theorem C7_load_versioning (sdkVersion : String) :
    (SimpleJSONFileAdapter.load none sdkVersion =
      .ok [("by_rs", .obj []),
           ("format_version", .str SimpleJSONFileAdapter.format_version),
           ("globus-sdk.version", .str sdkVersion)]) ∧
    (SimpleJSONFileAdapter.format_version = "1.0") ∧
    (∀ d : List (String × JSONValue), formatVersionOk d = false →
      SimpleJSONFileAdapter.load (some (.obj d)) sdkVersion = .error ()) ∧
    (∀ d : List (String × JSONValue), byRsOk d = false →
      SimpleJSONFileAdapter.load (some (.obj d)) sdkVersion = .error ()) := by
  refine ⟨rfl, rfl, ?_, ?_⟩
  · intro d h
    show handle_formats d = _
    simp [handle_formats, h]
  · intro d h
    show handle_formats d = _
    by_cases hf : formatVersionOk d = true <;> simp [handle_formats, h, hf]

theorem C7_load_versioning_witness :
    SimpleJSONFileAdapter.load none "3.14" =
      .ok [("by_rs", .obj []), ("format_version", .str "1.0"),
           ("globus-sdk.version", .str "3.14")] ∧
    SimpleJSONFileAdapter.load
      (some (.obj [("format_version", .str "0.9"), ("by_rs", .obj [])])) "3.14" =
      .error () ∧
    SimpleJSONFileAdapter.load
      (some (.obj [("format_version", .str "1.0"), ("by_rs", .str "notadict")])) "3.14" =
      .error () :=
  ⟨(C7_load_versioning "3.14").1,
   (C7_load_versioning "3.14").2.2.1 [("format_version", .str "0.9"), ("by_rs", .obj [])] rfl,
   (C7_load_versioning "3.14").2.2.2
     [("format_version", .str "1.0"), ("by_rs", .str "notadict")] rfl⟩

/-- Claim C8, as stated, fails on its atomicity conjunct: at this concrete
existing document and incoming response, store produces exactly the trace set
umask, open the destination in truncating write mode, write the merged
document; between the truncating open and the write the destination holds
neither the old nor the new document, so the transition is not atomic (an
atomic replacement would write a temporary file and rename it over the
destination, which this source never does). -/
theorem C8_counterexample :
    SimpleJSONFileAdapter.store (some (.obj c8OldDocDict)) "ver" [("rs2", .str "new")] =
      .ok ([.setUserOnlyUmask, .openTruncateDest, .writeDest (.obj c8NewDocDict)],
           c8NewDocDict) ∧
    ¬ AtomicTransition (.content (.obj c8OldDocDict)) (.content (.obj c8NewDocDict))
        [.setUserOnlyUmask, .openTruncateDest, .writeDest (.obj c8NewDocDict)] := by
  constructor
  · rfl
  · intro hA
    have hmem : FileState.truncated ∈
        fileStates (.content (.obj c8OldDocDict))
          [.setUserOnlyUmask, .openTruncateDest, .writeDest (.obj c8NewDocDict)] := by
      simp [fileStates, applyFSOp]
    rcases hA FileState.truncated hmem with h | h <;> cases h

/-- Claim C8 (amended): for every existing document that loads successfully,
store re-loads it and merges only the incoming resource-server entries into
its by_rs dict, so every entry for a resource server not named in the
incoming response is unchanged in the written document; the write happens
under the user-only umask but by truncating and rewriting the destination in
place, not atomically. -/
theorem C8_store_merge (file : JSONValue) (sdkVersion : String)
    (byRS : List (String × JSONValue)) (doc : List (String × JSONValue))
    (d0 : List (String × JSONValue)) (rs : String)
    (hl : SimpleJSONFileAdapter.load (some file) sdkVersion = .ok doc)
    (hby : pyDictGet doc "by_rs" = some (.obj d0))
    (hrs : ∀ kv ∈ byRS, kv.1 ≠ rs) :
    SimpleJSONFileAdapter.store (some file) sdkVersion byRS =
      .ok ([.setUserOnlyUmask, .openTruncateDest,
            .writeDest (.obj (pyDictSet doc "by_rs"
              (.obj (byRS.foldl (fun d kv => pyDictSet d kv.1 kv.2) d0))))],
           pyDictSet doc "by_rs"
             (.obj (byRS.foldl (fun d kv => pyDictSet d kv.1 kv.2) d0))) ∧
    pyDictGet (byRS.foldl (fun d kv => pyDictSet d kv.1 kv.2) d0) rs = pyDictGet d0 rs := by
  constructor
  · simp only [SimpleJSONFileAdapter.store]
    rw [hl]
    simp only [hby]
  · exact pyDictGet_foldl_pyDictSet_frame byRS d0 rs hrs

theorem C8_store_merge_witness :
    (SimpleJSONFileAdapter.store (some (.obj c8WitFileDict)) "v2" [("upd", .str "uv")] =
      .ok ([.setUserOnlyUmask, .openTruncateDest,
            .writeDest (.obj (pyDictSet c8WitFileDict "by_rs"
              (.obj ([("upd", JSONValue.str "uv")].foldl
                (fun d kv => pyDictSet d kv.1 kv.2) [("keep", JSONValue.str "kv")]))))],
           pyDictSet c8WitFileDict "by_rs"
             (.obj ([("upd", JSONValue.str "uv")].foldl
               (fun d kv => pyDictSet d kv.1 kv.2) [("keep", JSONValue.str "kv")])))) ∧
    pyDictGet ([("upd", JSONValue.str "uv")].foldl
        (fun d kv => pyDictSet d kv.1 kv.2) [("keep", JSONValue.str "kv")]) "keep" =
      pyDictGet [("keep", JSONValue.str "kv")] "keep" :=
  C8_store_merge (.obj c8WitFileDict) "v2" [("upd", .str "uv")] c8WitFileDict
    [("keep", .str "kv")] "keep" rfl rfl
    (by
      intro kv hkv
      rw [List.mem_singleton] at hkv
      subst hkv
      decide)
